import Mathlib

/-!
Verification of the lecture-summarizer audio pipeline
(src/main.py and src/ai_logic.py of MohamedMBashir/lecture-summarizer).

The Python source is embedded shallowly:

* audio is modelled by its total duration in milliseconds (a natural number);
* the slice loop of AudioTranscriber.chunk_audio iterates over the Python list
  range(0, len(audio), CHUNK_DURATION), which is embedded as pyRange;
* the streamlit / remote-API effects of main.process_audio are modelled by an
  Oracle supplying the outcome of each external call, and the run is summarised
  by a RunResult recording the filesystem create/delete events, the sequence of
  transcription calls, the session-state assignments, the exception caught by
  the except-branch and the exception (if any) escaping the call;
* ContentAnalyzer.chat_with_context is modelled as a pure function from the
  current conversation history and the remote outcome to the new history,
  the message list sent to the remote model, and the returned result;
* get_api_key is modelled over the three credential sources it consults.
-/

namespace LectureSummarizer

/-- Error taxonomy of the pipeline.  In Python every stage raises and re-raises
ordinary exception objects; one constructor per failure family is enough for
the claims, which only compare the propagated error with the raised one. -/
inductive Err where
  | decodeError
  | transcriptionError
  | summaryError
  | chatError
  | configError
  deriving DecidableEq, Repr

/-- AudioTranscriber.CHUNK_DURATION = 10 * 60 * 1000 (ai_logic.py line 61),
the maximal chunk duration in milliseconds. -/
def CHUNK_DURATION : Nat := 10 * 60 * 1000

theorem CHUNK_DURATION_pos : 0 < CHUNK_DURATION := by decide

/-- Python range(0, stop, step) for positive step: the k-th element is k*step
and the length is (stop + step - 1) / step, the ceiling of stop / step.  This
is exactly the iteration space of the for-loop in chunk_audio (line 90). -/
def pyRange (stop step : Nat) : List Nat :=
  (List.range ((stop + step - 1) / step)).map (fun k => k * step)

/-- AudioTranscriber.chunk_audio (ai_logic.py lines 78-99): for i in
range(0, len(audio), CHUNK_DURATION), the slice audio[i : i + CHUNK_DURATION]
is exported as one chunk file.  A chunk is modelled by the pair
(start, duration) of the slice; the pydub slice audio[i : i + d] of an audio
of length total has duration min d (total - i). -/
def chunk_audio (total : Nat) : List (Nat × Nat) :=
  (pyRange total CHUNK_DURATION).map (fun i => (i, min CHUNK_DURATION (total - i)))

theorem chunk_audio_eq (total : Nat) :
    chunk_audio total =
      (List.range ((total + CHUNK_DURATION - 1) / CHUNK_DURATION)).map
        (fun k => (k * CHUNK_DURATION, min CHUNK_DURATION (total - k * CHUNK_DURATION))) := by
  unfold chunk_audio pyRange
  rw [List.map_map]
  rfl

/-- Arithmetic step for the ceiling division (total + step - 1) / step used as
the iteration count of the chunk loop. -/
theorem div_step (step total : Nat) (hstep : 0 < step) (htot : 0 < total) :
    (total + step - 1) / step = (total - step + step - 1) / step + 1 := by
  rcases Nat.lt_or_ge step total with h | h
  · -- step < total: both sides reduce through two applications of add_div_right
    have h1 : total - step + step - 1 = (total - 1 - step) + step := by omega
    have h3 : total + step - 1 = ((total - 1 - step) + step) + step := by omega
    rw [h1, h3, Nat.add_div_right _ hstep, Nat.add_div_right _ hstep]
  · -- total ≤ step: both sides are 1
    have h1 : total - step + step - 1 = step - 1 := by omega
    have h3 : total + step - 1 = (total - 1) + step := by omega
    rw [h1, h3, Nat.add_div_right _ hstep]
    have h4 : (total - 1) / step = 0 := Nat.div_eq_of_lt (by omega)
    have h2 : (step - 1) / step = 0 := Nat.div_eq_of_lt (by omega)
    omega

/-- The durations min step (total - k*step), summed over the iteration space of
the chunk loop, recover the total duration. -/
theorem min_sub_sum (step : Nat) (hstep : 0 < step) :
    ∀ q total, (total + step - 1) / step = q →
      ((List.range q).map (fun k => min step (total - k * step))).sum = total := by
  intro q
  induction q with
  | zero =>
    intro total h
    have h1 : total = 0 := by
      by_contra hne
      have h2 : 1 * step ≤ total + step - 1 := by omega
      have h3 := (Nat.le_div_iff_mul_le hstep).mpr h2
      omega
    subst h1
    simp
  | succ q ih =>
    intro total h
    have htot : 0 < total := by
      by_contra hne
      have h0 : total = 0 := by omega
      subst h0
      have h1 : (0 + step - 1) / step = 0 := Nat.div_eq_of_lt (by omega)
      omega
    have hq : (total - step + step - 1) / step = q := by
      have hd := div_step step total hstep htot
      omega
    have IH := ih (total - step) hq
    rw [List.range_succ_eq_map, List.map_cons, List.map_map, List.sum_cons]
    have hfun : ((fun k => min step (total - k * step)) ∘ Nat.succ)
        = (fun k => min step (total - step - k * step)) := by
      funext k
      simp only [Function.comp]
      have hk : Nat.succ k * step = k * step + step := Nat.succ_mul k step
      omega
    rw [hfun, IH]
    have h00 : 0 * step = 0 := by ring
    omega

theorem chunk_audio_length (total : Nat) :
    (chunk_audio total).length = (total + CHUNK_DURATION - 1) / CHUNK_DURATION := by
  rw [chunk_audio_eq]
  simp

theorem chunk_audio_getD (total k : Nat) (hk : k < (chunk_audio total).length) :
    (chunk_audio total).getD k (0, 0)
      = (k * CHUNK_DURATION, min CHUNK_DURATION (total - k * CHUNK_DURATION)) := by
  rw [List.getD_eq_getElem _ _ hk]
  simp [chunk_audio_eq]

/-- Every chunk except the last covers a full CHUNK_DURATION of the input. -/
theorem chunk_not_last (total k : Nat)
    (hk : k + 1 < (total + CHUNK_DURATION - 1) / CHUNK_DURATION) :
    CHUNK_DURATION ≤ total - k * CHUNK_DURATION := by
  have h2 : (k + 2) * CHUNK_DURATION ≤ total + CHUNK_DURATION - 1 :=
    (Nat.le_div_iff_mul_le CHUNK_DURATION_pos).mp (by omega)
  have h3 : (k + 2) * CHUNK_DURATION
      = k * CHUNK_DURATION + CHUNK_DURATION + CHUNK_DURATION := by ring
  have h4 := CHUNK_DURATION_pos
  omega

/-- C2: for every input audio of positive total duration, chunk_audio produces
consecutive, non-overlapping, gapless segments in order: the segment count is
the ceiling (total + CHUNK_DURATION - 1) / CHUNK_DURATION of
total / CHUNK_DURATION; the durations sum exactly to the input duration; every
segment's duration is at most CHUNK_DURATION; every segment except the last
has duration exactly CHUNK_DURATION; the k-th segment (0-based position k in
the returned list, i.e. 1-based index k + 1, so the indices are 1..count with
no gaps or repeats by construction) starts at k * CHUNK_DURATION; and each
segment starts exactly where the previous one ends. -/
theorem chunk_audio_correct (total : Nat) (htotal : 0 < total) :
    (chunk_audio total).length = (total + CHUNK_DURATION - 1) / CHUNK_DURATION ∧
    ((chunk_audio total).map Prod.snd).sum = total ∧
    (∀ p ∈ chunk_audio total, p.2 ≤ CHUNK_DURATION) ∧
    (∀ k, k + 1 < (chunk_audio total).length →
      ((chunk_audio total).getD k (0, 0)).2 = CHUNK_DURATION) ∧
    (∀ k, k < (chunk_audio total).length →
      ((chunk_audio total).getD k (0, 0)).1 = k * CHUNK_DURATION) ∧
    (∀ k, k + 1 < (chunk_audio total).length →
      ((chunk_audio total).getD (k + 1) (0, 0)).1
        = ((chunk_audio total).getD k (0, 0)).1 + ((chunk_audio total).getD k (0, 0)).2) := by
  have hlen := chunk_audio_length total
  refine ⟨hlen, ?_, ?_, ?_, ?_, ?_⟩
  · rw [chunk_audio_eq, List.map_map]
    have hcomp : (Prod.snd ∘ fun k =>
          (k * CHUNK_DURATION, min CHUNK_DURATION (total - k * CHUNK_DURATION)))
        = fun k => min CHUNK_DURATION (total - k * CHUNK_DURATION) := rfl
    rw [hcomp]
    exact min_sub_sum CHUNK_DURATION CHUNK_DURATION_pos _ total rfl
  · intro p hp
    rw [chunk_audio_eq] at hp
    simp only [List.mem_map, List.mem_range] at hp
    obtain ⟨k, hk, rfl⟩ := hp
    exact Nat.min_le_left _ _
  · intro k hk
    have hk2 : k < (chunk_audio total).length := by omega
    rw [chunk_audio_getD total k hk2]
    have h := chunk_not_last total k (by rw [hlen] at hk; exact hk)
    simp [Nat.min_eq_left h]
  · intro k hk
    rw [chunk_audio_getD total k hk]
  · intro k hk
    have hk0 : k < (chunk_audio total).length := by omega
    rw [chunk_audio_getD total (k + 1) hk, chunk_audio_getD total k hk0]
    have h := chunk_not_last total k (by rw [hlen] at hk; exact hk)
    have hmin : min CHUNK_DURATION (total - k * CHUNK_DURATION) = CHUNK_DURATION :=
      Nat.min_eq_left h
    simp only [hmin]
    ring

/-- Witness for chunk_audio_correct at the 25-minute input of the spec
(1500000 ms): three chunks of durations 600000, 600000 and 300000 ms. -/
theorem chunk_audio_correct_witness :
    0 < 1500000 ∧
    ((chunk_audio 1500000).length = (1500000 + CHUNK_DURATION - 1) / CHUNK_DURATION ∧
     ((chunk_audio 1500000).map Prod.snd).sum = 1500000 ∧
     (∀ p ∈ chunk_audio 1500000, p.2 ≤ CHUNK_DURATION) ∧
     (∀ k, k + 1 < (chunk_audio 1500000).length →
       ((chunk_audio 1500000).getD k (0, 0)).2 = CHUNK_DURATION) ∧
     (∀ k, k < (chunk_audio 1500000).length →
       ((chunk_audio 1500000).getD k (0, 0)).1 = k * CHUNK_DURATION) ∧
     (∀ k, k + 1 < (chunk_audio 1500000).length →
       ((chunk_audio 1500000).getD (k + 1) (0, 0)).1
         = ((chunk_audio 1500000).getD k (0, 0)).1
           + ((chunk_audio 1500000).getD k (0, 0)).2)) :=
  ⟨by decide, chunk_audio_correct 1500000 (by decide)⟩

/-- AudioTranscriber.chunk_audio including its failure behaviour: the stage
raises only when pydub raises while decoding the wav file or exporting a
chunk; on a successfully decoded input of duration total the slice loop itself
cannot raise, and in particular when total = 0 the loop body never runs and
the empty chunk list is returned without any error. -/
def chunk_audio_run (decoded : Except Err Nat) : Except Err (List (Nat × Nat)) :=
  match decoded with
  | .error e => .error e
  | .ok total => .ok (chunk_audio total)

/-- C5 counterexample: on a zero-duration decoded input, chunk_audio does not
fail; it returns the empty-but-valid chunk list, contradicting the claim that
a DecodeError-level failure is produced. -/
theorem chunk_audio_zero_cex :
    chunk_audio_run (Except.ok 0) = Except.ok ([] : List (Nat × Nat)) := rfl

/-- C5 amended: a zero-duration normalized input is not rejected: chunk_audio
raises no error and returns the empty chunk list, and the empty chunk list is
returned exactly for zero-duration inputs. -/
theorem chunk_audio_zero_behavior :
    chunk_audio_run (Except.ok 0) = Except.ok ([] : List (Nat × Nat)) ∧
    ∀ total, chunk_audio total = [] ↔ total = 0 := by
  constructor
  · rfl
  · intro total
    constructor
    · intro h
      by_contra hne
      have h2 : 1 * CHUNK_DURATION ≤ total + CHUNK_DURATION - 1 := by
        have := CHUNK_DURATION_pos
        omega
      have h3 := (Nat.le_div_iff_mul_le CHUNK_DURATION_pos).mpr h2
      have h4 : (chunk_audio total).length = 0 := by rw [h]; rfl
      rw [chunk_audio_length] at h4
      omega
    · intro h
      subst h
      rfl

/-- One filesystem event of a processing run.  Temporary files are identified
by small numbers: 0 is the saved upload (main.py line 93), 1 is the normalized
WAV file created inside convert_to_wav (ai_logic.py line 68), and 2 + j is the
file of the j-th chunk (ai_logic.py line 92). -/
inductive FsEvent where
  | create (f : Nat)
  | delete (f : Nat)
  deriving DecidableEq, Repr

/-- Outcomes of the external calls made during one process_audio run.
convert is the result of decoding and exporting the upload (on success, the
duration of the produced WAV); chunkFailAt = some (k, e) means the export of
the k-th chunk (0-based) raises e after the files of chunks 0..k were already
created; transcribe i is the remote transcription outcome of the i-th chunk;
summarize is the remote summary outcome on a given transcript. -/
structure Oracle where
  convert : Except Err Nat
  chunkFailAt : Option (Nat × Err)
  transcribe : Nat → Except Err String
  summarize : String → Except Err String

def okValue : Except Err String → String
  | .ok t => t
  | .error _ => ""

def isOkE : Except Err String → Bool
  | .ok _ => true
  | .error _ => false

/-- The transcription loop of process_audio (main.py lines 111-116): one
transcribe_chunk call per chunk, in list order, stopping at the first raised
error.  Returns the list of chunk indices actually sent for transcription and
either the first error or the list of per-chunk transcriptions. -/
def transcribeLoop (f : Nat → Except Err String) : List Nat → List Nat × Except Err (List String)
  | [] => ([], Except.ok [])
  | i :: rest =>
    match f i with
    | .error e => ([i], Except.error e)
    | .ok t =>
      match transcribeLoop f rest with
      | (calls, .error e) => (i :: calls, Except.error e)
      | (calls, .ok ts) => (i :: calls, Except.ok (t :: ts))

/-- Observable summary of one process_audio call.  transcription and summary
are the values newly assigned to st.session_state.transcription and
st.session_state.summary during the run (none: the field was not assigned and
keeps whatever value it had before the call); caught is the exception that
reached the except-branch of process_audio (main.py line 132); raised is the
exception escaping process_audio to its caller; errorShown records whether
st.error was displayed (main.py line 134). -/
structure RunResult where
  events : List FsEvent
  transcribeCalls : List Nat
  transcription : Option String
  summary : Option String
  caught : Option Err
  raised : Option Err
  errorShown : Bool

/-- The filesystem events of a run in which conversion and chunking both
complete with n chunks: all n + 2 temporary files are created, and the finally
block (main.py lines 136-146) deletes each of them once. -/
def fullEvents (n : Nat) : List FsEvent :=
  [FsEvent.create 0, FsEvent.create 1]
    ++ (List.range n).map (fun j => FsEvent.create (2 + j))
    ++ [FsEvent.delete 0, FsEvent.delete 1]
    ++ (List.range n).map (fun j => FsEvent.delete (2 + j))

/-- The summary stage of a run whose transcription loop returned the list ts
(main.py lines 123-130): st.session_state.transcription is assigned the
space-joined transcript first, then generate_summary is called; on its failure
the except branch shows an error, on success st.session_state.summary is
assigned; the finally block runs either way. -/
def summarizeStep (o : Oracle) (n : Nat) (calls : List Nat) (ts : List String) : RunResult :=
  match o.summarize (String.intercalate " " ts) with
  | .error e =>
    { events := fullEvents n, transcribeCalls := calls,
      transcription := some (String.intercalate " " ts), summary := none,
      caught := some e, raised := none, errorShown := true }
  | .ok s =>
    { events := fullEvents n, transcribeCalls := calls,
      transcription := some (String.intercalate " " ts), summary := some s,
      caught := none, raised := none, errorShown := false }

/-- Dispatch on the outcome of the transcription loop: a raised transcription
error reaches the except branch with nothing assigned; otherwise the summary
stage runs.  In both cases the finally block deletes all n + 2 files. -/
def afterTranscription (o : Oracle) (n : Nat) :
    List Nat × Except Err (List String) → RunResult
  | (calls, .error e) =>
    { events := fullEvents n, transcribeCalls := calls,
      transcription := none, summary := none,
      caught := some e, raised := none, errorShown := true }
  | (calls, .ok ts) => summarizeStep o n calls ts

/-- The part of process_audio after conversion and chunking succeeded with n
chunks (main.py lines 104-147). -/
def afterChunks (o : Oracle) (n : Nat) : RunResult :=
  afterTranscription o n (transcribeLoop o.transcribe (List.range n))

/-- A chunk-export failure at 0-based chunk k (only possible while k is a real
chunk position): the files of chunks 0..k were created inside chunk_audio but
their paths are lost when it raises, so the finally block deletes only the
upload and the WAV file. -/
def chunkFailStep (o : Oracle) (n k : Nat) (e : Err) : RunResult :=
  if k < n then
    { events := [FsEvent.create 0, FsEvent.create 1]
        ++ (List.range (k + 1)).map (fun j => FsEvent.create (2 + j))
        ++ [FsEvent.delete 0, FsEvent.delete 1],
      transcribeCalls := [], transcription := none, summary := none,
      caught := some e, raised := none, errorShown := true }
  else afterChunks o n

/-- The chunking stage of a run whose conversion produced a WAV of duration
total (main.py line 104). -/
def chunkStage (o : Oracle) (total : Nat) : RunResult :=
  match o.chunkFailAt with
  | some (k, e) => chunkFailStep o (chunk_audio total).length k e
  | none => afterChunks o (chunk_audio total).length

/-- main.process_audio (main.py lines 81-147).  The saved upload is file 0.
If conversion fails, convert_to_wav has already created its temporary WAV file
(file 1, ai_logic.py line 68) before pydub raises; the path of that file was
never returned, so the finally block only deletes the upload.  Otherwise the
run continues with chunking and transcription.  The except branch never
re-raises, so raised is always none. -/
def process_audio (o : Oracle) : RunResult :=
  match o.convert with
  | .error e =>
    { events := [FsEvent.create 0, FsEvent.create 1, FsEvent.delete 0],
      transcribeCalls := [], transcription := none, summary := none,
      caught := some e, raised := none, errorShown := true }
  | .ok total => chunkStage o total

/-- Files created during a run, in creation order. -/
def createdIds (evs : List FsEvent) : List Nat :=
  evs.filterMap (fun e =>
    match e with
    | .create f => some f
    | .delete _ => none)

/-- Files deleted during a run, in deletion order. -/
def deletedIds (evs : List FsEvent) : List Nat :=
  evs.filterMap (fun e =>
    match e with
    | .delete f => some f
    | .create _ => none)

/-- Every file created during the run is deleted exactly once. -/
def cleanOk (evs : List FsEvent) : Prop :=
  ∀ f ∈ createdIds evs, (deletedIds evs).count f = 1

instance (evs : List FsEvent) : Decidable (cleanOk evs) := by
  unfold cleanOk
  infer_instance

theorem afterChunks_transcribe_error (o : Oracle) (n : Nat) (calls : List Nat) (e : Err)
    (h : transcribeLoop o.transcribe (List.range n) = (calls, Except.error e)) :
    afterChunks o n =
      { events := fullEvents n, transcribeCalls := calls,
        transcription := none, summary := none,
        caught := some e, raised := none, errorShown := true } := by
  unfold afterChunks
  rw [h]
  rfl

theorem afterChunks_summarize_error (o : Oracle) (n : Nat) (calls : List Nat)
    (ts : List String) (e : Err)
    (h : transcribeLoop o.transcribe (List.range n) = (calls, Except.ok ts))
    (hs : o.summarize (String.intercalate " " ts) = Except.error e) :
    afterChunks o n =
      { events := fullEvents n, transcribeCalls := calls,
        transcription := some (String.intercalate " " ts), summary := none,
        caught := some e, raised := none, errorShown := true } := by
  unfold afterChunks
  rw [h]
  show summarizeStep o n calls ts = _
  unfold summarizeStep
  rw [hs]

theorem afterChunks_success (o : Oracle) (n : Nat) (calls : List Nat)
    (ts : List String) (s : String)
    (h : transcribeLoop o.transcribe (List.range n) = (calls, Except.ok ts))
    (hs : o.summarize (String.intercalate " " ts) = Except.ok s) :
    afterChunks o n =
      { events := fullEvents n, transcribeCalls := calls,
        transcription := some (String.intercalate " " ts), summary := some s,
        caught := none, raised := none, errorShown := false } := by
  unfold afterChunks
  rw [h]
  show summarizeStep o n calls ts = _
  unfold summarizeStep
  rw [hs]

theorem afterChunks_events (o : Oracle) (n : Nat) :
    (afterChunks o n).events = fullEvents n := by
  cases h : transcribeLoop o.transcribe (List.range n) with
  | mk calls res =>
    cases res with
    | error e => rw [afterChunks_transcribe_error o n calls e h]
    | ok ts =>
      cases hs : o.summarize (String.intercalate " " ts) with
      | error e => rw [afterChunks_summarize_error o n calls ts e h hs]
      | ok s => rw [afterChunks_success o n calls ts s h hs]

theorem afterChunks_raised (o : Oracle) (n : Nat) :
    (afterChunks o n).raised = none := by
  cases h : transcribeLoop o.transcribe (List.range n) with
  | mk calls res =>
    cases res with
    | error e => rw [afterChunks_transcribe_error o n calls e h]
    | ok ts =>
      cases hs : o.summarize (String.intercalate " " ts) with
      | error e => rw [afterChunks_summarize_error o n calls ts e h hs]
      | ok s => rw [afterChunks_success o n calls ts s h hs]

theorem process_audio_convert_error (o : Oracle) (e : Err)
    (h : o.convert = Except.error e) :
    process_audio o =
      { events := [FsEvent.create 0, FsEvent.create 1, FsEvent.delete 0],
        transcribeCalls := [], transcription := none, summary := none,
        caught := some e, raised := none, errorShown := true } := by
  unfold process_audio
  rw [h]

theorem process_audio_ok_no_chunk_fail (o : Oracle) (total : Nat)
    (hc : o.convert = Except.ok total) (hk : o.chunkFailAt = none) :
    process_audio o = afterChunks o (chunk_audio total).length := by
  unfold process_audio
  rw [hc]
  show chunkStage o total = _
  unfold chunkStage
  rw [hk]

theorem process_audio_chunk_fail (o : Oracle) (total k : Nat) (e : Err)
    (hc : o.convert = Except.ok total) (hk : o.chunkFailAt = some (k, e))
    (hlt : k < (chunk_audio total).length) :
    process_audio o =
      { events := [FsEvent.create 0, FsEvent.create 1]
          ++ (List.range (k + 1)).map (fun j => FsEvent.create (2 + j))
          ++ [FsEvent.delete 0, FsEvent.delete 1],
        transcribeCalls := [], transcription := none, summary := none,
        caught := some e, raised := none, errorShown := true } := by
  unfold process_audio
  rw [hc]
  show chunkStage o total = _
  unfold chunkStage
  rw [hk]
  show chunkFailStep o (chunk_audio total).length k e = _
  unfold chunkFailStep
  rw [if_pos hlt]

theorem process_audio_chunk_fail_late (o : Oracle) (total k : Nat) (e : Err)
    (hc : o.convert = Except.ok total) (hk : o.chunkFailAt = some (k, e))
    (hge : ¬ k < (chunk_audio total).length) :
    process_audio o = afterChunks o (chunk_audio total).length := by
  unfold process_audio
  rw [hc]
  show chunkStage o total = _
  unfold chunkStage
  rw [hk]
  show chunkFailStep o (chunk_audio total).length k e = _
  unfold chunkFailStep
  rw [if_neg hge]

/-- The except branch of process_audio catches every exception and does not
re-raise: no exception ever escapes process_audio. -/
theorem process_audio_raised_none (o : Oracle) : (process_audio o).raised = none := by
  cases hc : o.convert with
  | error e => rw [process_audio_convert_error o e hc]
  | ok total =>
    cases hk : o.chunkFailAt with
    | none =>
      rw [process_audio_ok_no_chunk_fail o total hc hk]
      exact afterChunks_raised o _
    | some p =>
      rcases p with ⟨k, e⟩
      by_cases hlt : k < (chunk_audio total).length
      · rw [process_audio_chunk_fail o total k e hc hk hlt]
      · rw [process_audio_chunk_fail_late o total k e hc hk hlt]
        exact afterChunks_raised o _

theorem createdIds_map_create (g : Nat → Nat) (l : List Nat) :
    createdIds (l.map (fun j => FsEvent.create (g j))) = l.map g := by
  induction l with
  | nil => rfl
  | cons a t ih => simp [createdIds, List.filterMap_cons] at ih ⊢; exact ih

theorem createdIds_map_delete (g : Nat → Nat) (l : List Nat) :
    createdIds (l.map (fun j => FsEvent.delete (g j))) = [] := by
  induction l with
  | nil => rfl
  | cons a t ih => simp [createdIds, List.filterMap_cons] at ih ⊢

theorem deletedIds_map_create (g : Nat → Nat) (l : List Nat) :
    deletedIds (l.map (fun j => FsEvent.create (g j))) = [] := by
  induction l with
  | nil => rfl
  | cons a t ih => simp [deletedIds, List.filterMap_cons] at ih ⊢

theorem deletedIds_map_delete (g : Nat → Nat) (l : List Nat) :
    deletedIds (l.map (fun j => FsEvent.delete (g j))) = l.map g := by
  induction l with
  | nil => rfl
  | cons a t ih => simp [deletedIds, List.filterMap_cons] at ih ⊢; exact ih

theorem createdIds_append (xs ys : List FsEvent) :
    createdIds (xs ++ ys) = createdIds xs ++ createdIds ys := by
  unfold createdIds
  rw [List.filterMap_append]

theorem deletedIds_append (xs ys : List FsEvent) :
    deletedIds (xs ++ ys) = deletedIds xs ++ deletedIds ys := by
  unfold deletedIds
  rw [List.filterMap_append]

theorem createdIds_fullEvents (n : Nat) :
    createdIds (fullEvents n) = 0 :: 1 :: (List.range n).map (fun j => 2 + j) := by
  unfold fullEvents
  rw [createdIds_append, createdIds_append, createdIds_append,
    createdIds_map_create, createdIds_map_delete]
  simp [createdIds, List.filterMap_cons]

theorem deletedIds_fullEvents (n : Nat) :
    deletedIds (fullEvents n) = 0 :: 1 :: (List.range n).map (fun j => 2 + j) := by
  unfold fullEvents
  rw [deletedIds_append, deletedIds_append, deletedIds_append,
    deletedIds_map_create, deletedIds_map_delete]
  simp [deletedIds, List.filterMap_cons]

theorem nodup_file_ids (n : Nat) :
    (0 :: 1 :: (List.range n).map (fun j => 2 + j)).Nodup := by
  simp only [List.nodup_cons, List.mem_cons, List.mem_map, List.mem_range]
  refine ⟨?_, ?_, ?_⟩
  · rintro (h | ⟨j, hj, hje⟩) <;> omega
  · rintro ⟨j, hj, hje⟩
    omega
  · exact List.Nodup.map (fun a b h => by omega) (List.nodup_range n)

/-- In every run in which conversion and chunking both return, every temporary
file created during the run is deleted exactly once by the finally block. -/
theorem fullEvents_clean (n : Nat) : cleanOk (fullEvents n) := by
  intro f hf
  rw [deletedIds_fullEvents]
  rw [createdIds_fullEvents] at hf
  exact List.count_eq_one_of_mem (nodup_file_ids n) hf

/-- The cleanup contract does hold on the paths where every stage either
returns or fails only in the transcription loop or in summarization. -/
theorem process_audio_cleanup_when_stages_return (o : Oracle) (total : Nat)
    (hc : o.convert = Except.ok total) (hk : o.chunkFailAt = none) :
    cleanOk (process_audio o).events := by
  rw [process_audio_ok_no_chunk_fail o total hc hk, afterChunks_events]
  exact fullEvents_clean _

/-- A run whose upload cannot be decoded: AudioSegment.from_file raises inside
convert_to_wav after the temporary WAV file was already created. -/
def oConvFail : Oracle :=
  { convert := Except.error Err.decodeError, chunkFailAt := none,
    transcribe := fun _ => Except.ok "t", summarize := fun _ => Except.ok "s" }

/-- C1: evaluation of the code at a failing input.  When conversion fails, the
temporary WAV file (file 1), created by convert_to_wav before pydub raised,
is never deleted: its path was never returned to process_audio, whose finally
block deletes only the saved upload.  The run therefore leaves a temporary
file on disk, violating the delete-exactly-once guarantee. -/
theorem process_audio_leaks_wav_on_convert_failure :
    (process_audio oConvFail).events
      = [FsEvent.create 0, FsEvent.create 1, FsEvent.delete 0] ∧
    ¬ cleanOk (process_audio oConvFail).events := by
  refine ⟨rfl, ?_⟩
  decide

theorem transcribeLoop_all_ok (f : Nat → Except Err String) (l : List Nat)
    (h : ∀ i ∈ l, isOkE (f i) = true) :
    transcribeLoop f l = (l, Except.ok (l.map (fun i => okValue (f i)))) := by
  induction l with
  | nil => rfl
  | cons a rest ih =>
    have ha := h a (List.mem_cons_self a rest)
    cases hf : f a with
    | error e =>
      rw [hf] at ha
      simp [isOkE] at ha
    | ok t =>
      have hr : ∀ i ∈ rest, isOkE (f i) = true := fun i hi => h i (List.mem_cons_of_mem a hi)
      unfold transcribeLoop
      rw [hf, ih hr]
      simp [okValue, hf]

/-- C3: when every per-chunk transcription succeeds, the orchestration loop of
process_audio issues exactly one transcription call per chunk — the call list
is exactly the chunk positions 0, ..., n-1 in ascending order (1-based chunk
indices 1..n), so there are exactly n calls — and
st.session_state.transcription is assigned the per-chunk transcription
results joined with a single space separator in that same order. -/
theorem process_audio_transcription_order (o : Oracle) (total : Nat)
    (hc : o.convert = Except.ok total) (hk : o.chunkFailAt = none)
    (hok : ∀ i ∈ List.range (chunk_audio total).length, isOkE (o.transcribe i) = true) :
    (process_audio o).transcribeCalls = List.range (chunk_audio total).length ∧
    (process_audio o).transcribeCalls.length = (chunk_audio total).length ∧
    (process_audio o).transcription
      = some (String.intercalate " "
          ((List.range (chunk_audio total).length).map (fun i => okValue (o.transcribe i)))) := by
  have hloop := transcribeLoop_all_ok o.transcribe (List.range (chunk_audio total).length) hok
  rw [process_audio_ok_no_chunk_fail o total hc hk]
  cases hs : o.summarize (String.intercalate " "
      ((List.range (chunk_audio total).length).map (fun i => okValue (o.transcribe i)))) with
  | error e =>
    rw [afterChunks_summarize_error o _ _ _ e hloop hs]
    exact ⟨rfl, by simp, rfl⟩
  | ok s =>
    rw [afterChunks_success o _ _ _ s hloop hs]
    exact ⟨rfl, by simp, rfl⟩

/-- A fully successful 25-minute run (3 chunks). -/
def oAllOk : Oracle :=
  { convert := Except.ok 1500000, chunkFailAt := none,
    transcribe := fun _ => Except.ok "t", summarize := fun _ => Except.ok "s" }

/-- Witness for process_audio_transcription_order on a successful 3-chunk run. -/
theorem process_audio_transcription_order_witness :
    (process_audio oAllOk).transcribeCalls = List.range (chunk_audio 1500000).length ∧
    (process_audio oAllOk).transcribeCalls.length = (chunk_audio 1500000).length ∧
    (process_audio oAllOk).transcription
      = some (String.intercalate " "
          ((List.range (chunk_audio 1500000).length).map
            (fun i => okValue (oAllOk.transcribe i)))) :=
  process_audio_transcription_order oAllOk 1500000 rfl rfl (by decide)

/-- A 3-chunk run in which the transcription of chunk 2 (0-based position 1)
raises TranscriptionError. -/
def oTranscribeFail : Oracle :=
  { convert := Except.ok 1500000, chunkFailAt := none,
    transcribe := fun i => if i = 1 then Except.error Err.transcriptionError else Except.ok "t",
    summarize := fun _ => Except.ok "s" }

/-- C4 counterexample: transcription call 2 of 3 raises TranscriptionError,
the error reaches the except branch of process_audio, an error message is
shown — and process_audio returns normally.  No exception escapes (raised =
none), contradicting the claim that the top-level call re-raises the error. -/
theorem process_audio_no_reraise_cex :
    (process_audio oTranscribeFail).caught = some Err.transcriptionError ∧
    (process_audio oTranscribeFail).raised = none ∧
    (process_audio oTranscribeFail).errorShown = true := by
  decide

/-- C4 amended: each stage re-raises its error unchanged, so the exact error
raised by the failing stage is the one that reaches process_audio's
except-branch (caught), and a user-visible error is shown; but process_audio
itself catches every error and returns normally instead of re-raising — no
error ever propagates to its caller. -/
theorem process_audio_error_swallowed (o : Oracle) :
    (process_audio o).raised = none ∧
    (∀ e, o.convert = Except.error e →
      (process_audio o).caught = some e ∧ (process_audio o).errorShown = true) ∧
    (∀ total calls e, o.convert = Except.ok total → o.chunkFailAt = none →
      transcribeLoop o.transcribe (List.range (chunk_audio total).length)
        = (calls, Except.error e) →
      (process_audio o).caught = some e ∧ (process_audio o).errorShown = true) := by
  refine ⟨process_audio_raised_none o, ?_, ?_⟩
  · intro e h
    rw [process_audio_convert_error o e h]
    exact ⟨rfl, rfl⟩
  · intro total calls e hc hk hloop
    rw [process_audio_ok_no_chunk_fail o total hc hk,
      afterChunks_transcribe_error o _ calls e hloop]
    exact ⟨rfl, rfl⟩

/-- Second copy of the failing-transcription run, used as the concrete witness
input of process_audio_error_swallowed. -/
def oTranscribeFailW : Oracle :=
  { convert := Except.ok 1500000, chunkFailAt := none,
    transcribe := fun i => if i = 1 then Except.error Err.transcriptionError else Except.ok "w",
    summarize := fun _ => Except.ok "s" }

/-- Witness for process_audio_error_swallowed. -/
theorem process_audio_error_swallowed_witness :
    (process_audio oTranscribeFailW).raised = none ∧
    (process_audio oTranscribeFailW).caught = some Err.transcriptionError := by
  refine ⟨(process_audio_error_swallowed oTranscribeFailW).1, ?_⟩
  exact ((process_audio_error_swallowed oTranscribeFailW).2.2 1500000 [0, 1]
    Err.transcriptionError rfl rfl (by rfl)).1

/-- A 3-chunk run in which transcription succeeds and summarization raises. -/
def oSummaryFail : Oracle :=
  { convert := Except.ok 1500000, chunkFailAt := none,
    transcribe := fun _ => Except.ok "t",
    summarize := fun _ => Except.error Err.summaryError }

/-- C10 counterexample: when summarization fails, the run has failed (an error
is shown) and yet st.session_state.transcription was already assigned the
newly assembled transcript — it does not keep the value it had before the
call, contradicting the claim that the session-visible results are unchanged
by every failed run. -/
theorem process_audio_summary_failure_cex :
    (process_audio oSummaryFail).errorShown = true ∧
    (process_audio oSummaryFail).transcription = some "t t t" ∧
    (process_audio oSummaryFail).summary = none := by
  decide

/-- C10 amended: if conversion, chunking or transcription fails, neither
st.session_state.transcription nor st.session_state.summary is assigned, so
both keep their pre-call values; st.session_state.transcription is only ever
assigned the fully assembled space-joined transcript (never a partial one);
but if summarization fails, transcription has already been assigned that new
transcript and only summary keeps its pre-call value. -/
theorem process_audio_state_assignment (o : Oracle) :
    (∀ e, o.convert = Except.error e →
      (process_audio o).transcription = none ∧ (process_audio o).summary = none) ∧
    (∀ total k e, o.convert = Except.ok total → o.chunkFailAt = some (k, e) →
      k < (chunk_audio total).length →
      (process_audio o).transcription = none ∧ (process_audio o).summary = none) ∧
    (∀ total calls e, o.convert = Except.ok total → o.chunkFailAt = none →
      transcribeLoop o.transcribe (List.range (chunk_audio total).length)
        = (calls, Except.error e) →
      (process_audio o).transcription = none ∧ (process_audio o).summary = none) ∧
    (∀ total calls ts e, o.convert = Except.ok total → o.chunkFailAt = none →
      transcribeLoop o.transcribe (List.range (chunk_audio total).length)
        = (calls, Except.ok ts) →
      o.summarize (String.intercalate " " ts) = Except.error e →
      (process_audio o).transcription = some (String.intercalate " " ts) ∧
      (process_audio o).summary = none) := by
  refine ⟨?_, ?_, ?_, ?_⟩
  · intro e h
    rw [process_audio_convert_error o e h]
    exact ⟨rfl, rfl⟩
  · intro total k e hc hk hlt
    rw [process_audio_chunk_fail o total k e hc hk hlt]
    exact ⟨rfl, rfl⟩
  · intro total calls e hc hk hloop
    rw [process_audio_ok_no_chunk_fail o total hc hk,
      afterChunks_transcribe_error o _ calls e hloop]
    exact ⟨rfl, rfl⟩
  · intro total calls ts e hc hk hloop hs
    rw [process_audio_ok_no_chunk_fail o total hc hk,
      afterChunks_summarize_error o _ calls ts e hloop hs]
    exact ⟨rfl, rfl⟩

/-- Second copy of the failing-summarization run, used as the concrete witness
input of process_audio_state_assignment. -/
def oSummaryFailW : Oracle :=
  { convert := Except.ok 1500000, chunkFailAt := none,
    transcribe := fun _ => Except.ok "w",
    summarize := fun _ => Except.error Err.summaryError }

/-- Witness for process_audio_state_assignment. -/
theorem process_audio_state_assignment_witness :
    (process_audio oSummaryFailW).transcription = some "w w w" ∧
    (process_audio oSummaryFailW).summary = none :=
  ((process_audio_state_assignment oSummaryFailW).2.2.2 1500000 [0, 1, 2]
    ["w", "w", "w"] Err.summaryError rfl rfl (by rfl) (by rfl))

/-- Role tag of one chat message, as used in the OpenAI-style message dicts of
ai_logic.py. -/
inductive Role where
  | system
  | user
  | assistant
  deriving DecidableEq, Repr

/-- One message dict: a role and a content string. -/
structure Msg where
  role : Role
  content : String
  deriving DecidableEq, Repr

/-- The fixed system message of ContentAnalyzer.chat_with_context
(ai_logic.py line 154), embedding the full transcript.  The literal prompt
text is abridged; only its fixed-prefix-plus-transcript shape matters to the
claims. -/
def systemContext (transcription : String) : Msg :=
  { role := Role.system,
    content := "You are a helpful assistant answering questions about this lecture. "
      ++ "Lecture transcription for context: " ++ transcription }

/-- Result of one ContentAnalyzer.chat_with_context call: the conversation
history after the call, the message list passed to the remote model, and
either the assistant text or the re-raised remote error. -/
structure ChatResult where
  history : List Msg
  sent : List Msg
  result : Except Err String

/-- The remote call and history update of chat_with_context, after the user
question was appended (h1 is conversation_history including the question). -/
def chatStep (h1 : List Msg) (transcription : String)
    (remote : List Msg → Except Err String) : ChatResult :=
  match remote (systemContext transcription :: h1) with
  | .error e =>
    { history := h1, sent := systemContext transcription :: h1, result := Except.error e }
  | .ok r =>
    { history := h1 ++ [{ role := Role.assistant, content := r }],
      sent := systemContext transcription :: h1, result := Except.ok r }

/-- ContentAnalyzer.chat_with_context (ai_logic.py lines 147-170): append the
user question to conversation_history, build the message list as the system
context followed by the entire accumulated history (which now ends with the
just-appended question), issue one remote call; on success append the
assistant reply to the history and return it; on failure re-raise — the user
entry stays appended, no assistant entry is added. -/
def chat_with_context (history : List Msg) (transcription question : String)
    (remote : List Msg → Except Err String) : ChatResult :=
  chatStep (history ++ [{ role := Role.user, content := question }]) transcription remote

theorem chatStep_error (h1 : List Msg) (t : String)
    (remote : List Msg → Except Err String) (e : Err)
    (h : remote (systemContext t :: h1) = Except.error e) :
    chatStep h1 t remote
      = { history := h1, sent := systemContext t :: h1, result := Except.error e } := by
  unfold chatStep
  rw [h]

theorem chatStep_ok (h1 : List Msg) (t : String)
    (remote : List Msg → Except Err String) (r : String)
    (h : remote (systemContext t :: h1) = Except.ok r) :
    chatStep h1 t remote
      = { history := h1 ++ [{ role := Role.assistant, content := r }],
          sent := systemContext t :: h1, result := Except.ok r } := by
  unfold chatStep
  rw [h]

/-- The message list sent to the remote model, independent of the outcome. -/
theorem chatStep_sent (h1 : List Msg) (t : String)
    (remote : List Msg → Except Err String) :
    (chatStep h1 t remote).sent = systemContext t :: h1 := by
  cases h : remote (systemContext t :: h1) with
  | error e => rw [chatStep_error h1 t remote e h]
  | ok r => rw [chatStep_ok h1 t remote r h]

/-- C6: on a fresh (empty) conversation history, a successful
chat_with_context call leaves a history of length 2 — the user entry first
and the assistant entry second — while a call whose remote request fails
leaves a history of length 1 containing only the user entry, adds no
assistant entry, and propagates the error. -/
theorem chat_fresh_history (t q : String) (remote : List Msg → Except Err String) :
    (∀ r, remote (systemContext t :: [{ role := Role.user, content := q }]) = Except.ok r →
      (chat_with_context [] t q remote).history
        = [{ role := Role.user, content := q }, { role := Role.assistant, content := r }] ∧
      (chat_with_context [] t q remote).result = Except.ok r) ∧
    (∀ e, remote (systemContext t :: [{ role := Role.user, content := q }]) = Except.error e →
      (chat_with_context [] t q remote).history = [{ role := Role.user, content := q }] ∧
      (chat_with_context [] t q remote).result = Except.error e) := by
  constructor
  · intro r h
    unfold chat_with_context
    rw [chatStep_ok _ t remote r (by simpa using h)]
    exact ⟨rfl, rfl⟩
  · intro e h
    unfold chat_with_context
    rw [chatStep_error _ t remote e (by simpa using h)]
    exact ⟨rfl, rfl⟩

/-- Witness for chat_fresh_history: one successful call and one failing call
on a fresh session. -/
theorem chat_fresh_history_witness :
    (chat_with_context [] "T" "Q" (fun _ => Except.ok "A")).history
      = [{ role := Role.user, content := "Q" }, { role := Role.assistant, content := "A" }] ∧
    (chat_with_context [] "T" "Q" (fun _ => Except.error Err.chatError)).history
      = [{ role := Role.user, content := "Q" }] := by
  constructor
  · exact ((chat_fresh_history "T" "Q" (fun _ => Except.ok "A")).1 "A" rfl).1
  · exact ((chat_fresh_history "T" "Q" (fun _ => Except.error Err.chatError)).2
      Err.chatError rfl).1

/-- C7: the message list sent to the remote model is exactly one fixed system
message embedding the transcript, followed by the entire accumulated
conversation history in order, ending with the just-appended user question. -/
theorem chat_sent_messages (history : List Msg) (t q : String)
    (remote : List Msg → Except Err String) :
    (chat_with_context history t q remote).sent
      = systemContext t :: (history ++ [{ role := Role.user, content := q }]) := by
  unfold chat_with_context
  exact chatStep_sent _ t remote

/-- The streamlit session state touched by the chat tab of main.py:
chat_history is st.session_state.chat_history (the rendered log), and
analyzer_history is st.session_state.analyzer.conversation_history (the
ContentAnalyzer's internal log). -/
structure SessionState where
  chat_history : List Msg
  analyzer_history : List Msg

/-- The Clear Chat button handler (main.py lines 244-246): it resets only
st.session_state.chat_history; the analyzer object is untouched. -/
def clear_chat (s : SessionState) : SessionState :=
  { s with chat_history := [] }

/-- The post-call state update of process_input: s1 already has the user
entry appended to chat_history, cr is the chat_with_context result. -/
def processInputStep (s1 : SessionState) (cr : ChatResult) : SessionState × ChatResult :=
  match cr.result with
  | .ok r =>
    ({ s1 with
        chat_history := s1.chat_history ++ [{ role := Role.assistant, content := r }],
        analyzer_history := cr.history }, cr)
  | .error _ =>
    ({ s1 with analyzer_history := cr.history }, cr)

/-- main.process_input (main.py lines 150-165): append the user question to
st.session_state.chat_history, call analyzer.chat_with_context (which appends
to the analyzer's own history), and on success append the assistant reply to
st.session_state.chat_history.  On failure the exception propagates with the
user entry already appended to both histories. -/
def process_input (s : SessionState) (transcription question : String)
    (remote : List Msg → Except Err String) : SessionState × ChatResult :=
  processInputStep
    { s with chat_history := s.chat_history ++ [{ role := Role.user, content := question }] }
    (chat_with_context s.analyzer_history transcription question remote)

theorem processInputStep_snd (s1 : SessionState) (cr : ChatResult) :
    (processInputStep s1 cr).2 = cr := by
  unfold processInputStep
  cases h : cr.result with
  | error e => rfl
  | ok r => rfl

/-- C9: Clear Chat resets only the displayed chat history and leaves the
analyzer's internal conversation history unchanged, so the next
chat_with_context call still sends every exchange recorded before the clear:
its message list is the system context followed by the full pre-clear
analyzer history plus the new question. -/
theorem clear_chat_frame_effect (s : SessionState) (t q : String)
    (remote : List Msg → Except Err String) :
    (clear_chat s).chat_history = [] ∧
    (clear_chat s).analyzer_history = s.analyzer_history ∧
    ((process_input (clear_chat s) t q remote).2).sent
      = systemContext t :: (s.analyzer_history ++ [{ role := Role.user, content := q }]) := by
  refine ⟨rfl, rfl, ?_⟩
  unfold process_input
  rw [processInputStep_snd]
  unfold chat_with_context
  exact chatStep_sent _ t remote

/-- The three credential sources of get_api_key (ai_logic.py lines 19-47):
the process environment, the streamlit secrets store (present only when st
has a secrets attribute), and the interactive user input kept in session
state.  A missing value is the empty string, matching Python falsiness (both
None and the empty string fail the `if not api_key` tests). -/
structure KeySources where
  env : String
  hasSecrets : Bool
  secrets : String
  userInput : String

/-- ai_logic.get_api_key: try the environment, then (when available) the
secrets store, then the user input, keeping the first non-empty value; if all
three are empty, show an error and stop the script (modelled as a ConfigError
result, which in streamlit halts the session). -/
def get_api_key (s : KeySources) : Except Err String :=
  let k1 := s.env
  let k2 := if k1 = "" ∧ s.hasSecrets then s.secrets else k1
  let k3 := if k2 = "" then s.userInput else k2
  if k3 = "" then Except.error Err.configError else Except.ok k3

/-- The module level of main.py (lines 17-19): both API keys are resolved
before any UI or processing code runs; a st.stop in get_api_key halts the
script, so process_audio is reached only after both resolutions succeed. -/
def run_session (gem oai : KeySources) (o : Oracle) : Except Err RunResult :=
  match get_api_key gem with
  | .error e => Except.error e
  | .ok _ =>
    match get_api_key oai with
    | .error e => Except.error e
    | .ok _ => Except.ok (process_audio o)

/-- C8: credential resolution tries the environment, then the secrets store,
then the interactive input, in that order, stopping at the first non-empty
value; when all three sources are empty the resolution is a fatal
configuration error, and the whole session halts: run_session yields that
error and never reaches process_audio. -/
theorem get_api_key_resolution (s oai : KeySources) (o : Oracle) :
    (s.env ≠ "" → get_api_key s = Except.ok s.env) ∧
    (s.env = "" → s.hasSecrets = true → s.secrets ≠ "" →
      get_api_key s = Except.ok s.secrets) ∧
    (s.env = "" → (s.hasSecrets = false ∨ s.secrets = "") → s.userInput ≠ "" →
      get_api_key s = Except.ok s.userInput) ∧
    (s.env = "" → (s.hasSecrets = false ∨ s.secrets = "") → s.userInput = "" →
      get_api_key s = Except.error Err.configError ∧
      run_session s oai o = Except.error Err.configError) := by
  refine ⟨?_, ?_, ?_, ?_⟩
  · intro h
    unfold get_api_key
    simp [h]
  · intro h1 h2 h3
    unfold get_api_key
    simp [h1, h2, h3]
  · intro h1 h2 h3
    unfold get_api_key
    rcases h2 with h2 | h2 <;> simp [h1, h2, h3]
  · intro h1 h2 h3
    have hkey : get_api_key s = Except.error Err.configError := by
      unfold get_api_key
      rcases h2 with h2 | h2 <;> simp [h1, h2, h3]
    refine ⟨hkey, ?_⟩
    unfold run_session
    rw [hkey]

/-- Oracle used by the C8 witness (its contents are irrelevant: the session
halts before processing). -/
def oC8 : Oracle :=
  { convert := Except.ok 0, chunkFailAt := none,
    transcribe := fun _ => Except.ok "", summarize := fun _ => Except.ok "" }

/-- Witness for get_api_key_resolution: a key found in the environment, and a
session halted by a key missing from all three sources. -/
theorem get_api_key_resolution_witness :
    get_api_key { env := "E", hasSecrets := true, secrets := "S", userInput := "U" }
      = Except.ok "E" ∧
    run_session { env := "", hasSecrets := true, secrets := "", userInput := "" }
      { env := "k", hasSecrets := true, secrets := "", userInput := "" } oC8
      = Except.error Err.configError := by
  constructor
  · exact (get_api_key_resolution
      { env := "E", hasSecrets := true, secrets := "S", userInput := "U" }
      { env := "", hasSecrets := true, secrets := "", userInput := "" } oC8).1 (by decide)
  · exact ((get_api_key_resolution
      { env := "", hasSecrets := true, secrets := "", userInput := "" }
      { env := "k", hasSecrets := true, secrets := "", userInput := "" } oC8).2.2.2
      rfl (Or.inr rfl) rfl).2

end LectureSummarizer
